import Mathlib

/-!
Verification of the filesystem-tree walker in `scripts/gather_tree.py`.

The script walks a root directory, classifies each entry as a file or a
directory, follows symbolic links with a per-branch `visited` set for cycle
detection, and serializes the resulting tree to pretty-printed JSON.

The shallow embedding models the filesystem operations the script uses
(`is_symlink`, `resolve`, `exists`, `is_file`, `is_dir`, `iterdir`) as an
abstract record `FS`; paths are lists of components.  `scan_directory`,
`gather_tree`, `count_nodes` and the JSON encoder are translated directly
from the Python source.  Recursion over the filesystem is bounded by an
explicit fuel parameter (the Python recursion has no a-priori structural
bound); running out of fuel is a distinguished outcome, never conflated
with an answer of the program.
-/

namespace GatherTree

/-- A filesystem path, as its list of components (`Path` in the script). -/
abbrev Path := List String

/-- `p.name` in `pathlib`: the final component, `""` for an empty path. -/
def Path.name (p : Path) : String := p.getLast?.getD ""

/-- The node dataclasses of `gather_tree.py`: `FileNode(name, type="file")`
and `DirectoryNode(name, type="folder", children)`.  The `type` tag of each
dataclass is fixed by its constructor (the script never passes any other
value), so the two dataclasses become the two constructors. -/
inductive Node where
  | file (name : String)
  | dir (name : String) (children : List Node)

/-- The `name` field common to both node dataclasses. -/
def Node.name : Node → String
  | .file n => n
  | .dir n _ => n

/-- The `TreeStructure` dataclass: a record holding the root node. -/
structure TreeStructure where
  root : Node

/-- The filesystem operations used by the script, as an abstract record.
`resolve` returns `none` when `Path.resolve()` raises (`OSError` or
`RuntimeError`); `iterdir` returns the directory entry names in filesystem
order, or `none` when the listing call raises. -/
structure FS where
  is_symlink : Path → Bool
  resolve : Path → Option Path
  path_exists : Path → Bool
  is_file : Path → Bool
  is_dir : Path → Bool
  iterdir : Path → Option (List String)

/-- ASCII lowercasing of one character, as `str.lower` acts on ASCII.
(The example filesystems in this file use ASCII names only, where this
agrees with Python's `str.lower`.) -/
def lowerChar (c : Char) : Char :=
  if 'A' ≤ c ∧ c ≤ 'Z' then Char.ofNat (c.toNat + 32) else c

/-- The sort key `p.name.lower()` of the script, as a list of characters. -/
def lowerKey (s : String) : List Char := s.data.map lowerChar

/-- Lexicographic comparison of character lists, as Python compares
strings (by code point). -/
def lexLe : List Char → List Char → Bool
  | [], _ => true
  | _ :: _, [] => false
  | a :: as, b :: bs => if a < b then true else if b < a then false else lexLe as bs

/-- The ordering used by `sorted(path.iterdir(), key=lambda p: p.name.lower())`:
compare entry names by their lowercased form. -/
def lowerLE (a b : String) : Prop := lexLe (lowerKey a) (lowerKey b) = true

instance : DecidableRel lowerLE := fun _ _ => instDecidableEqBool _ _

/-- `sorted(entries, key=lambda p: p.name.lower())`: Python's sort is
stable, and a stable sort for a total preorder is unique, so the stable
`List.insertionSort` models it exactly. -/
def sortEntries (names : List String) : List String := List.insertionSort lowerLE names

/-- Outcome of one call of `scan_directory`: a returned node, a propagating
`OSError`/`PermissionError` (the script re-raises it after logging), or
exhaustion of the embedding's fuel. -/
inductive Res where
  | ok (node : Node)
  | oserror (p : Path)
  | outOfFuel

/-- The successful payload of a `Res`, if any. -/
def okNode : Res → Option Node
  | .ok n => some n
  | .oserror _ => none
  | .outOfFuel => none

/-- The `for entry in entries` loop of `scan_directory`: scan each entry,
append successful children, skip entries whose scan raises
(`except (OSError, PermissionError): continue`).  Fuel exhaustion inside a
child aborts the whole evaluation. -/
def runEntries (recurse : String → Res) : List String → Option (List Node)
  | [] => some []
  | nm :: rest =>
    match recurse nm with
    | .ok child => (runEntries recurse rest).map (child :: ·)
    | .oserror _ => runEntries recurse rest
    | .outOfFuel => none

/-- One unfolding of `scan_directory(path, visited)` (lines 57-132 of the
script), with `recurse` standing for the recursive call.

* Symlink branch: resolve the target; on failure return
  `FileNode(path.name)`; if the target is in `visited` return
  `FileNode(target.name)` (cycle warning); otherwise add the target to the
  set and recurse (`visited.add(target)` mutates the set passed on).
* Otherwise resolve the path (a raise propagates), apply the cycle check,
  add the resolved path, and classify: file, directory (list entries,
  sort case-insensitively, scan each with a copy of `visited`), or other
  (`FileNode` with a warning).  A failing `iterdir` is re-raised.

The script's `visited.discard(resolved_path)` after the loop mutates a set
that no caller reads afterwards (children receive copies, and the symlink
caller returns immediately), so it has no observable effect and is not
modelled. -/
def scanStep (fs : FS) (recurse : Path → List Path → Res)
    (path : Path) (visited : List Path) : Res :=
  if fs.is_symlink path then
    match fs.resolve path with
    | some target =>
      if target ∈ visited then
        Res.ok (Node.file (Path.name target))
      else
        recurse target (target :: visited)
    | none => Res.ok (Node.file (Path.name path))
  else
    match fs.resolve path with
    | some resolved_path =>
      if resolved_path ∈ visited then
        Res.ok (Node.file (Path.name resolved_path))
      else
        let visited' := resolved_path :: visited
        if fs.is_file path then
          Res.ok (Node.file (Path.name resolved_path))
        else if fs.is_dir path then
          match fs.iterdir path with
          | some names =>
            match runEntries (fun nm => recurse (path ++ [nm]) visited') (sortEntries names) with
            | some children => Res.ok (Node.dir (Path.name resolved_path) children)
            | none => Res.outOfFuel
          | none => Res.oserror path
        else
          Res.ok (Node.file (Path.name resolved_path))
    | none => Res.oserror path

/-- `scan_directory` with fuel: each recursive call of the script consumes
one unit. -/
def scan_directory (fs : FS) : Nat → Path → List Path → Res
  | 0, _, _ => Res.outOfFuel
  | fuel + 1, path, visited => scanStep fs (scan_directory fs fuel) path visited

/-- Outcome of `gather_tree`: a tree, the `ValueError` for an invalid root
path, a propagating `OSError`, or fuel exhaustion. -/
inductive GatherRes where
  | ok (t : TreeStructure)
  | invalid_path
  | oserror (p : Path)
  | outOfFuel

/-- `gather_tree(folder_path)` (lines 135-163): raise `ValueError` unless
the path exists and is a directory; scan it with a fresh empty `visited`
set; wrap a non-directory result in a synthetic `DirectoryNode` named
after the root path. -/
def gather_tree (fs : FS) (fuel : Nat) (folder_path : Path) : GatherRes :=
  if ¬ fs.path_exists folder_path then GatherRes.invalid_path
  else if ¬ fs.is_dir folder_path then GatherRes.invalid_path
  else
    match scan_directory fs fuel folder_path [] with
    | Res.ok (Node.dir n c) => GatherRes.ok ⟨Node.dir n c⟩
    | Res.ok other => GatherRes.ok ⟨Node.dir (Path.name folder_path) [other]⟩
    | Res.oserror p => GatherRes.oserror p
    | Res.outOfFuel => GatherRes.outOfFuel

mutual
/-- `count_nodes` inside `print_report` (lines 184-196): a `FileNode`
counts as `(1, 0)`; a `DirectoryNode` starts from `(files, dirs) = (0, 1)`
and accumulates its children's counts in a loop. -/
def count_nodes : Node → Nat × Nat
  | .dir _ children => count_loop children (0, 1)
  | .file _ => (1, 0)

/-- The `for child in node.children` accumulation loop of `count_nodes`. -/
def count_loop : List Node → Nat × Nat → Nat × Nat
  | [], acc => acc
  | child :: rest, acc =>
    count_loop rest (acc.1 + (count_nodes child).1, acc.2 + (count_nodes child).2)
end

mutual
/-- Modelled from the spec: the number of FileNodes in a tree ("a tree
containing N FileNodes"). -/
def numFiles : Node → Nat
  | .file _ => 1
  | .dir _ cs => numFilesList cs

/-- Total number of FileNodes in a forest. -/
def numFilesList : List Node → Nat
  | [] => 0
  | c :: rest => numFiles c + numFilesList rest
end

mutual
/-- Modelled from the spec: the number of DirectoryNodes in a tree, the
root included ("M DirectoryNodes (the root included in M)"). -/
def numDirs : Node → Nat
  | .file _ => 0
  | .dir _ cs => 1 + numDirsList cs

/-- Total number of DirectoryNodes in a forest. -/
def numDirsList : List Node → Nat
  | [] => 0
  | c :: rest => numDirs c + numDirsList rest
end

/-- JSON values, as far as the script's output uses them. -/
inductive JVal where
  | str (s : String)
  | arr (elems : List JVal)
  | obj (fields : List (String × JVal))

mutual
/-- `dataclasses.asdict` as applied by `DataclassJSONEncoder.default`
(lines 36-42): a dataclass becomes an object whose keys are its fields in
declaration order — `name`, `type`, and (for `DirectoryNode` only, but
always, even when empty) `children`. -/
def nodeToJ : Node → JVal
  | .file nm => .obj [("name", .str nm), ("type", .str "file")]
  | .dir nm cs =>
    .obj [("name", .str nm), ("type", .str "folder"), ("children", .arr (nodesToJ cs))]

/-- `asdict` applied to each element of a `children` list. -/
def nodesToJ : List Node → List JVal
  | [] => []
  | c :: rest => nodeToJ c :: nodesToJ rest
end

/-- `asdict(TreeStructure(root))`: an object with the single key `root`. -/
def treeToJ (t : TreeStructure) : JVal := .obj [("root", nodeToJ t.root)]

/-- Indentation prefix of `json.dump(..., indent=2)` at nesting level `lvl`. -/
def indentStr (lvl : Nat) : String := String.join (List.replicate lvl "  ")

/-- JSON string-character escaping with `ensure_ascii=False`: only `"`,
`\` and control characters are escaped; everything else — non-ASCII
included — passes through unchanged. -/
def escChar (c : Char) : String :=
  if c = '"' then "\\\""
  else if c = '\\' then "\\\\"
  else if c = '\n' then "\\n"
  else if c = '\t' then "\\t"
  else if c = '\r' then "\\r"
  else if c.toNat = 8 then "\\b"
  else if c.toNat = 12 then "\\f"
  else if c.toNat < 32 then
    "\\u00" ++ (if c.toNat < 16 then "0" else "") ++ String.mk (Nat.toDigits 16 c.toNat)
  else String.singleton c

/-- A JSON string literal under `ensure_ascii=False`. -/
def jstr (s : String) : String := "\"" ++ String.join (s.data.map escChar) ++ "\""

mutual
/-- `json.dump(value, f, indent=2)` rendering: objects and arrays put each
item on its own line, indented two further spaces, with `", "`-free
separators `",\n"` and `": "`; empty containers render inline. -/
def renderJ : JVal → Nat → String
  | .str s, _ => jstr s
  | .arr [], _ => "[]"
  | .arr (x :: xs), lvl =>
    "[\n" ++ String.intercalate ",\n" (renderArr (x :: xs) (lvl + 1)) ++
      "\n" ++ indentStr lvl ++ "]"
  | .obj [], _ => "\x7b\x7d"
  | .obj (f :: fs), lvl =>
    "\x7b\n" ++ String.intercalate ",\n" (renderFields (f :: fs) (lvl + 1)) ++
      "\n" ++ indentStr lvl ++ "\x7d"

/-- Rendering of the elements of a JSON array. -/
def renderArr : List JVal → Nat → List String
  | [], _ => []
  | x :: xs, lvl => (indentStr lvl ++ renderJ x lvl) :: renderArr xs lvl

/-- Rendering of the key/value pairs of a JSON object. -/
def renderFields : List (String × JVal) → Nat → List String
  | [], _ => []
  | (k, v) :: fs, lvl => (indentStr lvl ++ jstr k ++ ": " ++ renderJ v lvl) :: renderFields fs lvl
end

/-- `save_to_json` (lines 166-177): the document written to the output
file, `json.dump(tree, f, indent=2, cls=DataclassJSONEncoder,
ensure_ascii=False)`.  The file itself is opened with `encoding="utf-8"`;
the byte encoding of this string is outside the model. -/
def serialize (t : TreeStructure) : String := renderJ (treeToJ t) 0

/-- The top-level keys of a JSON object. -/
def jKeys : JVal → List String
  | .obj fields => fields.map Prod.fst
  | .str _ => []
  | .arr _ => []

/-- The claim predicate of the data-model invariant: a children sequence
is sorted by case-insensitive node name. -/
def childrenSortedCI (cs : List Node) : Prop :=
  List.Pairwise (fun a b => lowerLE (Node.name a) (Node.name b)) cs

/-- Every `DirectoryNode` of a tree, at any depth, has a case-insensitively
sorted children sequence. -/
inductive AllSortedCI : Node → Prop where
  | file (nm : String) : AllSortedCI (Node.file nm)
  | dir (nm : String) (cs : List Node) :
      childrenSortedCI cs → (∀ c ∈ cs, AllSortedCI c) → AllSortedCI (Node.dir nm cs)

/-- `main` (lines 211-266), restricted to what the claims need: the exit
code, and the document written to the output JSON file if any.
`gather_tree` raising `ValueError` or `OSError` is caught and mapped to
exit code 1 before `save_to_json` runs; on success the serialized tree is
written and the exit code is 0.  `none` when the fuel ran out. -/
def run_main (fs : FS) (fuel : Nat) (folder_path : Path) : Option (Nat × Option String) :=
  match gather_tree fs fuel folder_path with
  | GatherRes.ok t => some (0, some (serialize t))
  | GatherRes.invalid_path => some (1, none)
  | GatherRes.oserror _ => some (1, none)
  | GatherRes.outOfFuel => none

end GatherTree

namespace GatherTree

/-! ### Example filesystems

Small concrete filesystems used to evaluate the embedding at the inputs
the claims speak about.  Each describes real, consistent `pathlib`
behaviour: canonical paths resolve to themselves, symlinks resolve to
their (already canonical) target, `is_dir`/`is_file` follow symlinks. -/

/-- A directory `r` holding one symlink `r/link` whose target is the
directory `t` (not an ancestor of `r/link`); `t` holds one regular file
`t/x`. -/
def fsC1 : FS where
  is_symlink := fun p => p == ["r", "link"]
  resolve := fun p => if p == ["r", "link"] then some ["t"] else some p
  path_exists := fun _ => true
  is_file := fun p => p == ["t", "x"]
  is_dir := fun p => p == ["r"] || p == ["t"]
  iterdir := fun p =>
    if p == ["r"] then some ["link"] else if p == ["t"] then some ["x"] else none

/-- A directory `r` holding a symlink `r/a` whose target is the regular
file `z`, and a regular file `r/b`: the entry names sort as `a < b`, but
the node built for `r/a` carries the resolved name `z`. -/
def fsC2 : FS where
  is_symlink := fun p => p == ["r", "a"]
  resolve := fun p => if p == ["r", "a"] then some ["z"] else some p
  path_exists := fun _ => true
  is_file := fun p => p == ["r", "b"] || p == ["z"]
  is_dir := fun p => p == ["r"]
  iterdir := fun p => if p == ["r"] then some ["a", "b"] else none

/-- A directory `r` with readable files `r/a` and `r/c` and an unreadable
subdirectory `r/bad` whose listing raises. -/
def fsC4 : FS where
  is_symlink := fun _ => false
  resolve := fun p => some p
  path_exists := fun _ => true
  is_file := fun p => p == ["r", "a"] || p == ["r", "c"]
  is_dir := fun p => p == ["r"] || p == ["r", "bad"]
  iterdir := fun p => if p == ["r"] then some ["a", "bad", "c"] else none

/-- A filesystem on which no path exists. -/
def fsC5 : FS where
  is_symlink := fun _ => false
  resolve := fun p => some p
  path_exists := fun _ => false
  is_file := fun _ => false
  is_dir := fun _ => false
  iterdir := fun _ => none

/-- A directory `r` holding a symlink `r/a` that points back to its
ancestor `r` (a symlink chain collapses to this after `resolve`). -/
def fsC6 : FS where
  is_symlink := fun p => p == ["r", "a"]
  resolve := fun p => if p == ["r", "a"] then some ["r"] else some p
  path_exists := fun _ => true
  is_file := fun _ => false
  is_dir := fun p => p == ["r"]
  iterdir := fun p => if p == ["r"] then some ["a"] else none

/-- A root path `s` that is itself a symlink to the empty directory `t`
(`s.exists()` and `s.is_dir()` follow the link and hold). -/
def fsC7 : FS where
  is_symlink := fun p => p == ["s"]
  resolve := fun p => if p == ["s"] then some ["t"] else some p
  path_exists := fun _ => true
  is_file := fun _ => false
  is_dir := fun p => p == ["s"] || p == ["t"]
  iterdir := fun p => if p == ["t"] then some [] else none

/-- A directory `r` holding a broken symlink `r/bad` (resolution raises)
and a regular file `r/good`. -/
def fsC9 : FS where
  is_symlink := fun p => p == ["r", "bad"]
  resolve := fun p => if p == ["r", "bad"] then none else some p
  path_exists := fun _ => true
  is_file := fun p => p == ["r", "good"]
  is_dir := fun p => p == ["r"]
  iterdir := fun p => if p == ["r"] then some ["bad", "good"] else none

/-- A symlink-free directory `r` with files `B` and `a`, listed by the
filesystem in non-sorted order. -/
def fsSortW : FS where
  is_symlink := fun _ => false
  resolve := fun p => some p
  path_exists := fun _ => true
  is_file := fun p => p != ["r"]
  is_dir := fun p => p == ["r"]
  iterdir := fun p => if p == ["r"] then some ["B", "a"] else none

/-! ### Helper lemmas -/

/-- The entry ordering is total. -/
theorem lexLe_total (xs ys : List Char) : lexLe xs ys = true ∨ lexLe ys xs = true := by
  induction xs generalizing ys with
  | nil => exact Or.inl rfl
  | cons a as ih =>
    cases ys with
    | nil => exact Or.inr rfl
    | cons b bs =>
      rcases lt_trichotomy a b with h | h | h
      · exact Or.inl (by simp [lexLe, h])
      · subst h
        rcases ih bs with hl | hl
        · exact Or.inl (by simp [lexLe, lt_irrefl, hl])
        · exact Or.inr (by simp [lexLe, lt_irrefl, hl])
      · exact Or.inr (by simp [lexLe, h])

/-- The entry ordering is transitive. -/
theorem lexLe_trans : ∀ xs ys zs : List Char,
    lexLe xs ys = true → lexLe ys zs = true → lexLe xs zs = true
  | [], _, _, _, _ => rfl
  | _ :: _, [], _, h1, _ => by simp [lexLe] at h1
  | _ :: _, _ :: _, [], _, h2 => by simp [lexLe] at h2
  | x :: xs, y :: ys, z :: zs, h1, h2 => by
    rcases lt_trichotomy x y with hxy | hxy | hxy
    · rcases lt_trichotomy y z with hyz | hyz | hyz
      · simp [lexLe, lt_trans hxy hyz]
      · subst hyz; simp [lexLe, hxy]
      · have hn : ¬ y < z := asymm hyz
        simp [lexLe, hn, hyz] at h2
    · subst hxy
      have h1' : lexLe xs ys = true := by simpa [lexLe, lt_irrefl] using h1
      rcases lt_trichotomy x z with hxz | hxz | hxz
      · simp [lexLe, hxz]
      · subst hxz
        have h2' : lexLe ys zs = true := by simpa [lexLe, lt_irrefl] using h2
        have := lexLe_trans xs ys zs h1' h2'
        simp [lexLe, lt_irrefl, this]
      · have hn : ¬ x < z := asymm hxz
        simp [lexLe, hn, hxz] at h2
    · have hn : ¬ x < y := asymm hxy
      simp [lexLe, hn, hxy] at h1

/-- The sorted entry list is pairwise ordered by the lowercased key. -/
theorem sortEntries_sorted (names : List String) :
    List.Pairwise lowerLE (sortEntries names) :=
  @List.sorted_insertionSort String lowerLE _
    ⟨fun a b => lexLe_total (lowerKey a) (lowerKey b)⟩
    ⟨fun a b c h1 h2 => lexLe_trans (lowerKey a) (lowerKey b) (lowerKey c) h1 h2⟩
    names

/-- The base name of a directory entry `path / nm` is `nm`. -/
theorem path_name_concat (p : Path) (nm : String) : Path.name (p ++ [nm]) = nm := by
  simp [Path.name]

/-- When no child scan runs out of fuel, the entry loop keeps exactly the
successful children, in entry order, and skips the raising ones. -/
theorem runEntries_eq_filterMap (recurse : String → Res) :
    ∀ l : List String, Res.outOfFuel ∉ l.map recurse →
      runEntries recurse l = some ((l.map recurse).filterMap okNode) := by
  intro l
  induction l with
  | nil => intro _; rfl
  | cons nm rest ih =>
    intro h
    rw [List.map_cons] at h
    have hnm : recurse nm ≠ Res.outOfFuel := fun he => h (by rw [he]; exact List.mem_cons_self _ _)
    have hrest : Res.outOfFuel ∉ rest.map recurse := fun hm => h (List.mem_cons_of_mem _ hm)
    cases hr : recurse nm with
    | ok child => simp [runEntries, hr, ih hrest, okNode]
    | oserror p => simp [runEntries, hr, ih hrest, okNode]
    | outOfFuel => exact absurd hr hnm

/-- The names of the children kept by the entry loop form a sublist of the
entry-name list, provided each successful child is named after its entry. -/
theorem runEntries_sublist (recurse : String → Res)
    (hname : ∀ nm c, recurse nm = Res.ok c → Node.name c = nm) :
    ∀ (l : List String) (cs : List Node), runEntries recurse l = some cs →
      (cs.map Node.name).Sublist l := by
  intro l
  induction l with
  | nil =>
    intro cs h
    simp only [runEntries, Option.some.injEq] at h
    subst h; simp
  | cons nm rest ih =>
    intro cs h
    cases hr : recurse nm with
    | ok child =>
      rw [runEntries, hr] at h
      cases hrest : runEntries recurse rest with
      | none => rw [hrest] at h; simp at h
      | some cs' =>
        rw [hrest] at h
        simp only [Option.map_some', Option.some.injEq] at h
        subst h
        rw [List.map_cons, hname nm child hr]
        exact (ih cs' hrest).cons₂ nm
    | oserror p =>
      rw [runEntries, hr] at h
      exact (ih cs h).cons nm
    | outOfFuel =>
      rw [runEntries, hr] at h
      simp at h

/-- Every child kept by the entry loop is the successful scan of one of
the entries. -/
theorem runEntries_mem (recurse : String → Res) :
    ∀ (l : List String) (cs : List Node), runEntries recurse l = some cs →
      ∀ c ∈ cs, ∃ nm ∈ l, recurse nm = Res.ok c := by
  intro l
  induction l with
  | nil =>
    intro cs h
    simp only [runEntries, Option.some.injEq] at h
    subst h; intro c hc; exact absurd hc (List.not_mem_nil c)
  | cons nm rest ih =>
    intro cs h c hc
    cases hr : recurse nm with
    | ok child =>
      rw [runEntries, hr] at h
      cases hrest : runEntries recurse rest with
      | none => rw [hrest] at h; simp at h
      | some cs' =>
        rw [hrest] at h
        simp only [Option.map_some', Option.some.injEq] at h
        subst h
        rcases List.mem_cons.mp hc with hceq | hcm
        · exact ⟨nm, List.mem_cons_self _ _, by rw [hr, hceq]⟩
        · obtain ⟨nm', hnm', hrec⟩ := ih cs' hrest c hcm
          exact ⟨nm', List.mem_cons_of_mem _ hnm', hrec⟩
    | oserror p =>
      rw [runEntries, hr] at h
      obtain ⟨nm', hnm', hrec⟩ := ih cs h c hc
      exact ⟨nm', List.mem_cons_of_mem _ hnm', hrec⟩
    | outOfFuel =>
      rw [runEntries, hr] at h
      simp at h

mutual
/-- `count_nodes` computes the number of FileNodes and of DirectoryNodes. -/
theorem count_nodes_eq : (n : Node) → count_nodes n = (numFiles n, numDirs n)
  | .file _ => rfl
  | .dir nm cs => by
    have h := count_loop_eq cs (0, 1)
    rw [count_nodes, h]
    simp [numFiles, numDirs, Nat.add_comm]

/-- The accumulation loop adds the forest's counts to the accumulator. -/
theorem count_loop_eq : (l : List Node) → (acc : Nat × Nat) →
    count_loop l acc = (acc.1 + numFilesList l, acc.2 + numDirsList l)
  | [], acc => by simp [count_loop, numFilesList, numDirsList]
  | c :: rest, acc => by
    have hc := count_nodes_eq c
    have hr := count_loop_eq rest (acc.1 + (count_nodes c).1, acc.2 + (count_nodes c).2)
    rw [count_loop, hr, hc]
    simp [numFilesList, numDirsList, Nat.add_assoc]
end

/-- The FileNode count of a forest is the sum of the children's first
components. -/
theorem numFilesList_eq_sum (cs : List Node) :
    numFilesList cs = ((cs.map count_nodes).map Prod.fst).sum := by
  induction cs with
  | nil => rfl
  | cons c rest ih => simp [numFilesList, ih, count_nodes_eq c]

/-- The DirectoryNode count of a forest is the sum of the children's
second components. -/
theorem numDirsList_eq_sum (cs : List Node) :
    numDirsList cs = ((cs.map count_nodes).map Prod.snd).sum := by
  induction cs with
  | nil => rfl
  | cons c rest ih => simp [numDirsList, ih, count_nodes_eq c]

/-- On a symlink-free filesystem whose paths are canonical, every node a
successful scan returns is named after its path, and every directory node
in it has case-insensitively sorted children. -/
theorem scan_canonical (fs : FS)
    (hsym : ∀ q, fs.is_symlink q = false) (hres : ∀ q, fs.resolve q = some q) :
    ∀ (fuel : Nat) (p : Path) (v : List Path) (n : Node),
      scan_directory fs fuel p v = Res.ok n → Node.name n = Path.name p ∧ AllSortedCI n := by
  intro fuel
  induction fuel with
  | zero =>
    intro p v n h
    simp [scan_directory] at h
  | succ fuel ih =>
    intro p v n h
    rw [scan_directory, scanStep, hsym p, hres p] at h
    simp only [Bool.false_eq_true, if_false] at h
    by_cases hv : p ∈ v
    · rw [if_pos hv] at h
      injection h with h
      subst h
      exact ⟨rfl, AllSortedCI.file _⟩
    · rw [if_neg hv] at h
      by_cases hf : fs.is_file p = true
      · rw [if_pos hf] at h
        injection h with h
        subst h
        exact ⟨rfl, AllSortedCI.file _⟩
      · rw [if_neg hf] at h
        by_cases hd : fs.is_dir p = true
        · rw [if_pos hd] at h
          cases hiter : fs.iterdir p with
          | none => rw [hiter] at h; simp at h
          | some names =>
            rw [hiter] at h
            dsimp only at h
            cases hrun : runEntries (fun nm => scan_directory fs fuel (p ++ [nm]) (p :: v))
                (sortEntries names) with
            | none => rw [hrun] at h; simp at h
            | some children =>
              rw [hrun] at h
              injection h with h
              subst h
              refine ⟨rfl, AllSortedCI.dir _ _ ?_ ?_⟩
              · have hname : ∀ nm c,
                    scan_directory fs fuel (p ++ [nm]) (p :: v) = Res.ok c →
                      Node.name c = nm :=
                  fun nm c hc => (ih (p ++ [nm]) (p :: v) c hc).1.trans (path_name_concat p nm)
                have hsub := runEntries_sublist _ hname (sortEntries names) children hrun
                have hpw : List.Pairwise lowerLE (children.map Node.name) :=
                  List.Pairwise.sublist hsub (sortEntries_sorted names)
                exact List.pairwise_map.mp hpw
              · intro c hc
                obtain ⟨nm, _, hrec⟩ := runEntries_mem _ (sortEntries names) children hrun c hc
                exact (ih (p ++ [nm]) (p :: v) c hrec).2
        · rw [if_neg hd] at h
          injection h with h
          subst h
          exact ⟨rfl, AllSortedCI.file _⟩

end GatherTree

namespace GatherTree

/-! ### The claims -/

/-- Claim C1 (refuted by the code; evaluation of the failing input): in
`fsC1`, `r/link` is a symlink whose resolution succeeds, whose target
`t` is a directory that is not among the current path's ancestors, and
`t` holds the file `x` — scanning `t` itself yields
`DirectoryNode "t" [FileNode "x"]`.  The claim says the symlink is
expanded into that DirectoryNode; the code instead returns the terminal
`FileNode "t"`: the symlink branch adds the resolved target to `visited`
and recurses with the same set, so the recursive call immediately sees
its own path in `visited` and takes the cycle branch. -/
theorem c1_symlink_never_expanded :
    scan_directory fsC1 5 ["r"] [] = Res.ok (Node.dir "r" [Node.file "t"]) ∧
    fsC1.is_symlink ["r", "link"] = true ∧
    fsC1.resolve ["r", "link"] = some ["t"] ∧
    fsC1.is_dir ["t"] = true ∧
    fsC1.iterdir ["t"] = some ["x"] ∧
    scan_directory fsC1 5 ["t"] [] = Res.ok (Node.dir "t" [Node.file "x"]) :=
  ⟨rfl, rfl, rfl, rfl, rfl, rfl⟩

/-- Claim C2, counterexample: in `fsC2` the directory `r` holds the
symlink `a` (to the file `z`) and the file `b`.  The built children are
`[FileNode "z", FileNode "b"]` — the entries were processed in sorted
entry-name order `a, b`, but the node of a symlink carries the resolved
target's name, so the children node names `z, b` are not sorted
case-insensitively. -/
theorem c2_counterexample :
    scan_directory fsC2 3 ["r"] [] = Res.ok (Node.dir "r" [Node.file "z", Node.file "b"]) ∧
    ¬ childrenSortedCI [Node.file "z", Node.file "b"] :=
  ⟨rfl, by unfold childrenSortedCI; decide⟩

/-- Claim C2 (amended): on a filesystem with no symbolic links and
identity (canonical) resolution — so that every node's name equals its
entry name — every DirectoryNode in a tree built by `scan_directory` has
its children sorted by case-insensitive name, regardless of the order in
which the filesystem yields directory entries.  (In general the children
appear in sorted *entry*-name order, but a symlink child is renamed to
its target's base name, which can break node-name sortedness.) -/
theorem c2_children_sorted_amended (fs : FS)
    (hsym : ∀ q, fs.is_symlink q = false) (hres : ∀ q, fs.resolve q = some q)
    (fuel : Nat) (p : Path) (v : List Path) (n : Node)
    (h : scan_directory fs fuel p v = Res.ok n) : AllSortedCI n :=
  (scan_canonical fs hsym hres fuel p v n h).2

/-- Witness for C2 (amended): `fsSortW` lists `B` before `a`, yet the
built children come out sorted case-insensitively as `a, B`. -/
theorem c2_children_sorted_amended_witness :
    AllSortedCI (Node.dir "r" [Node.file "a", Node.file "B"]) :=
  c2_children_sorted_amended fsSortW (fun _ => rfl) (fun _ => rfl) 2 ["r"] [] _ rfl

/-- Claim C3: `count_nodes` is a pure recursive fold — a FileNode
contributes `(1, 0)`, a DirectoryNode contributes `(0, 1)` plus the
component-wise sum of its children's counts — and consequently on any
tree it returns exactly the pair (number of FileNodes, number of
DirectoryNodes, the root included). -/
theorem c3_count_nodes_fold :
    (∀ nm, count_nodes (Node.file nm) = (1, 0)) ∧
    (∀ nm cs, count_nodes (Node.dir nm cs) =
      (0 + ((cs.map count_nodes).map Prod.fst).sum,
       1 + ((cs.map count_nodes).map Prod.snd).sum)) ∧
    (∀ n : Node, count_nodes n = (numFiles n, numDirs n)) := by
  refine ⟨fun _ => rfl, ?_, count_nodes_eq⟩
  intro nm cs
  rw [count_nodes_eq (Node.dir nm cs)]
  simp [numFiles, numDirs, numFilesList_eq_sum, numDirsList_eq_sum]

/-- Claim C4: when a directory's listing succeeds, each child entry whose
own scan raises an access error is skipped (omitted from `children`) while
the remaining entries are still scanned, and the kept children are exactly
the successful ones in entry order; when listing the directory itself
fails, the error is re-raised to the caller. -/
theorem c4_entry_errors :
    (∀ (fs : FS) (fuel : Nat) (path : Path) (visited : List Path) (rp : Path),
      fs.is_symlink path = false → fs.resolve path = some rp → rp ∉ visited →
      fs.is_file path = false → fs.is_dir path = true → fs.iterdir path = none →
      scan_directory fs (fuel + 1) path visited = Res.oserror path) ∧
    (∀ (fs : FS) (fuel : Nat) (path : Path) (visited : List Path) (rp : Path)
        (names : List String),
      fs.is_symlink path = false → fs.resolve path = some rp → rp ∉ visited →
      fs.is_file path = false → fs.is_dir path = true → fs.iterdir path = some names →
      Res.outOfFuel ∉ (sortEntries names).map
        (fun nm => scan_directory fs fuel (path ++ [nm]) (rp :: visited)) →
      scan_directory fs (fuel + 1) path visited =
        Res.ok (Node.dir (Path.name rp)
          (((sortEntries names).map
            (fun nm => scan_directory fs fuel (path ++ [nm]) (rp :: visited))).filterMap
              okNode))) := by
  constructor
  · intro fs fuel path visited rp h1 h2 h3 h4 h5 h6
    rw [scan_directory, scanStep, h1, h2, h4, h5, h6]
    simp [h3]
  · intro fs fuel path visited rp names h1 h2 h3 h4 h5 h6 hfuel
    have hrun := runEntries_eq_filterMap
      (fun nm => scan_directory fs fuel (path ++ [nm]) (rp :: visited))
      (sortEntries names) hfuel
    rw [scan_directory, scanStep, h1, h2, h4, h5, h6]
    simp [h3, hrun]

/-- Witness for C4: in `fsC4` the child `r/bad` cannot be listed; it is
omitted while `r/a` and `r/c` survive, and scanning `r/bad` alone
propagates the error. -/
theorem c4_entry_errors_witness :
    scan_directory fsC4 2 ["r"] [] = Res.ok (Node.dir "r" [Node.file "a", Node.file "c"]) ∧
    scan_directory fsC4 2 ["r", "bad"] [["r"]] = Res.oserror ["r", "bad"] := by
  constructor
  · exact (c4_entry_errors.2 fsC4 1 ["r"] [] ["r"] ["a", "bad", "c"]
      rfl rfl (by decide) rfl rfl rfl
      (by show Res.outOfFuel ∉
            [Res.ok (Node.file "a"), Res.oserror ["r", "bad"], Res.ok (Node.file "c")]
          simp)).trans (by rfl)
  · exact c4_entry_errors.1 fsC4 1 ["r", "bad"] [["r"]] ["r", "bad"] rfl rfl (by decide) rfl rfl rfl

/-- Claim C5: `gather_tree` returns the invalid-path error exactly when
the root path does not exist or is not a directory, and in that case the
program exits with code 1 having written no output document (the
serialization step is never reached). -/
theorem c5_invalid_path :
    (∀ (fs : FS) (fuel : Nat) (p : Path),
      gather_tree fs fuel p = GatherRes.invalid_path ↔
        (fs.path_exists p = false ∨ fs.is_dir p = false)) ∧
    (∀ (fs : FS) (fuel : Nat) (p : Path),
      gather_tree fs fuel p = GatherRes.invalid_path → run_main fs fuel p = some (1, none)) := by
  constructor
  · intro fs fuel p
    constructor
    · intro h
      by_contra hc
      push_neg at hc
      obtain ⟨he, hd⟩ := hc
      have he' : fs.path_exists p = true := by
        revert he; cases fs.path_exists p <;> simp
      have hd' : fs.is_dir p = true := by
        revert hd; cases fs.is_dir p <;> simp
      rw [gather_tree, if_neg (by simp [he']), if_neg (by simp [hd'])] at h
      cases hscan : scan_directory fs fuel p [] with
      | ok nd => cases nd <;> (rw [hscan] at h; simp at h)
      | oserror q => rw [hscan] at h; simp at h
      | outOfFuel => rw [hscan] at h; simp at h
    · intro h
      rcases h with h | h
      · rw [gather_tree, if_pos (by simp [h])]
      · by_cases hex : fs.path_exists p = true
        · rw [gather_tree, if_neg (by simp [hex]), if_pos (by simp [h])]
        · rw [gather_tree, if_pos (by simp [hex])]
  · intro fs fuel p h
    unfold run_main
    rw [h]

/-- Witness for C5: on `fsC5` no path exists, so the run exits 1 with no
document written. -/
theorem c5_invalid_path_witness : run_main fsC5 3 ["missing"] = some (1, none) :=
  c5_invalid_path.2 fsC5 3 ["missing"]
    ((c5_invalid_path.1 fsC5 3 ["missing"]).mpr (Or.inl rfl))

/-- Claim C6: a symlink whose resolved target is already in the `visited`
set accumulated along the current branch yields the terminal
`FileNode(target.name)` without recursing; concretely, on `fsC6`, where
`r/a` points back to its ancestor `r`, the walk terminates with a
finite tree and no error. -/
theorem c6_cycle_terminal :
    (∀ (fs : FS) (fuel : Nat) (path : Path) (visited : List Path) (target : Path),
      fs.is_symlink path = true → fs.resolve path = some target → target ∈ visited →
      scan_directory fs (fuel + 1) path visited = Res.ok (Node.file (Path.name target))) ∧
    scan_directory fsC6 3 ["r"] [] = Res.ok (Node.dir "r" [Node.file "r"]) := by
  refine ⟨?_, rfl⟩
  intro fs fuel path visited target h1 h2 h3
  rw [scan_directory, scanStep, h1, h2]
  simp [h3]

/-- Witness for C6: the symlink `r/a` of `fsC6` resolves to the visited
ancestor `r` and collapses to `FileNode "r"`. -/
theorem c6_cycle_terminal_witness :
    scan_directory fsC6 2 ["r", "a"] [["r"]] = Res.ok (Node.file "r") :=
  c6_cycle_terminal.1 fsC6 1 ["r", "a"] [["r"]] ["r"] rfl rfl (by decide)

/-- Claim C7: every tree `gather_tree` returns has a DirectoryNode root;
the walker runs on an empty `visited` set, and when the walk of the root
yields a non-directory node the result is wrapped in a synthetic
DirectoryNode named after the root path's base name with that node as
its only child (a directory result is kept as the root unchanged). -/
theorem c7_root_wrapped :
    (∀ (fs : FS) (fuel : Nat) (p : Path) (t : TreeStructure),
      gather_tree fs fuel p = GatherRes.ok t → ∃ nm cs, t.root = Node.dir nm cs) ∧
    (∀ (fs : FS) (fuel : Nat) (p : Path) (nm : String),
      fs.path_exists p = true → fs.is_dir p = true →
      scan_directory fs fuel p [] = Res.ok (Node.file nm) →
      gather_tree fs fuel p = GatherRes.ok ⟨Node.dir (Path.name p) [Node.file nm]⟩) ∧
    (∀ (fs : FS) (fuel : Nat) (p : Path) (nm : String) (cs : List Node),
      fs.path_exists p = true → fs.is_dir p = true →
      scan_directory fs fuel p [] = Res.ok (Node.dir nm cs) →
      gather_tree fs fuel p = GatherRes.ok ⟨Node.dir nm cs⟩) := by
  refine ⟨?_, ?_, ?_⟩
  · intro fs fuel p t h
    rw [gather_tree] at h
    by_cases h1 : ¬ fs.path_exists p = true
    · rw [if_pos h1] at h; simp at h
    · rw [if_neg h1] at h
      by_cases h2 : ¬ fs.is_dir p = true
      · rw [if_pos h2] at h; simp at h
      · rw [if_neg h2] at h
        cases hscan : scan_directory fs fuel p [] with
        | ok nd =>
          cases nd with
          | file fnm =>
            rw [hscan] at h
            dsimp only at h
            injection h with h
            exact ⟨_, _, by rw [← h]⟩
          | dir dnm cs =>
            rw [hscan] at h
            dsimp only at h
            injection h with h
            exact ⟨dnm, cs, by rw [← h]⟩
        | oserror q => rw [hscan] at h; simp at h
        | outOfFuel => rw [hscan] at h; simp at h
  · intro fs fuel p nm hex hdir hscan
    rw [gather_tree, if_neg (by simp [hex]), if_neg (by simp [hdir]), hscan]
  · intro fs fuel p nm cs hex hdir hscan
    rw [gather_tree, if_neg (by simp [hex]), if_neg (by simp [hdir]), hscan]

/-- Witness for C7: on `fsC7` the root `s` is a symlink whose walk yields
a file node, so the tree is the wrap `DirectoryNode "s" [FileNode "t"]`. -/
theorem c7_root_wrapped_witness :
    gather_tree fsC7 2 ["s"] = GatherRes.ok ⟨Node.dir "s" [Node.file "t"]⟩ :=
  c7_root_wrapped.2.1 fsC7 2 ["s"] "t" rfl rfl rfl

/-- Claim C8: serialization is a pure function of the tree (hence
deterministic), every node object carries the keys in the stable order
`name`, `type`, then `children` if present, the `type` value is exactly
`"file"` or `"folder"` by constructor, and the rendering is pretty-printed
with 2-space indentation and leaves non-ASCII names unescaped
(`ensure_ascii=False`), as the concrete document for the tree
`root = DirectoryNode "α" [FileNode "é.txt"]` shows. -/
theorem c8_serialization :
    (∀ nm, nodeToJ (Node.file nm) = JVal.obj [("name", JVal.str nm), ("type", JVal.str "file")]) ∧
    (∀ nm cs, nodeToJ (Node.dir nm cs) =
      JVal.obj [("name", JVal.str nm), ("type", JVal.str "folder"),
        ("children", JVal.arr (nodesToJ cs))]) ∧
    (∀ t : TreeStructure, treeToJ t = JVal.obj [("root", nodeToJ t.root)]) ∧
    serialize ⟨Node.dir "α" [Node.file "é.txt"]⟩ =
      "\x7b\n  \"root\": \x7b\n    \"name\": \"α\",\n    \"type\": \"folder\",\n    \"children\": [\n      \x7b\n        \"name\": \"é.txt\",\n        \"type\": \"file\"\n      \x7d\n    ]\n  \x7d\n\x7d" :=
  ⟨fun _ => rfl, fun _ _ => rfl, fun _ => rfl, rfl⟩

/-- Claim C9: a symlink whose resolution fails yields a warning and the
terminal `FileNode` named with the link's own (unresolved) base name,
without recursing, and the failure is non-fatal for the rest of the walk:
in `fsC9` the broken link `r/bad` and the file `r/good` both appear as
children. -/
theorem c9_broken_symlink :
    (∀ (fs : FS) (fuel : Nat) (path : Path) (visited : List Path),
      fs.is_symlink path = true → fs.resolve path = none →
      scan_directory fs (fuel + 1) path visited = Res.ok (Node.file (Path.name path))) ∧
    scan_directory fsC9 2 ["r"] [] = Res.ok (Node.dir "r" [Node.file "bad", Node.file "good"]) := by
  refine ⟨?_, rfl⟩
  intro fs fuel path visited h1 h2
  rw [scan_directory, scanStep, h1, h2]
  simp

/-- Witness for C9: the broken symlink `r/bad` of `fsC9` becomes
`FileNode "bad"`, named after the unresolved link. -/
theorem c9_broken_symlink_witness :
    scan_directory fsC9 1 ["r", "bad"] [["r"]] = Res.ok (Node.file "bad") :=
  c9_broken_symlink.1 fsC9 0 ["r", "bad"] [["r"]] rfl rfl

/-- Claim C10: in the serialized document every DirectoryNode object
carries a `children` key, even with an empty list, while a FileNode
object never does: absence of the key happens exactly on file nodes. -/
theorem c10_children_key :
    (∀ nm cs, jKeys (nodeToJ (Node.dir nm cs)) = ["name", "type", "children"]) ∧
    (∀ nm, jKeys (nodeToJ (Node.file nm)) = ["name", "type"]) ∧
    (∀ n : Node, "children" ∈ jKeys (nodeToJ n) ↔ ∃ nm cs, n = Node.dir nm cs) := by
  refine ⟨fun _ _ => rfl, fun _ => rfl, ?_⟩
  intro n
  cases n with
  | file nm => simp [nodeToJ, jKeys]
  | dir nm cs => simp [nodeToJ, jKeys]

end GatherTree
